import Mathlib

/-!
# Verification of the SoTrym player bundle (`src/decode.bundle.js`)

A shallow embedding of the decryption pipeline, the devtools-inspection
monitor, the playback-strategy selector and the player lifecycle of
`decode.bundle.js`, with theorems settling the specification claims.

Modelling conventions:
* JavaScript byte buffers (`Uint8Array`, `ArrayBuffer`) are `List Nat`
  with each element a byte value.
* JavaScript strings are Lean `String`s; a binary string produced by
  `String.fromCharCode` has one `Char` per byte.
* The browser's AES block-cipher primitive (`crypto.subtle`) is an
  external capability; it is modelled as an abstract block function
  `E : key → counterBlock → 16 bytes` and counter (CTR) mode is built
  on top of it exactly as Web Crypto's `AES-CTR` with `length: 128`
  does: block `i` of the keystream is `E key (counter + i mod 2^128)`
  and the data is XORed with the keystream.
* `async` functions are modelled as pure state transformers; the
  single-threaded event loop is a step function over an explicit state.
-/

set_option autoImplicit false

/-! ## Byte-level utilities -/

/-- Little-endian byte serialisation of `n` into `w` bytes. -/
def leBytes : Nat → Nat → List Nat
  | 0, _ => []
  | w + 1, n => n % 256 :: leBytes w (n / 256)

/-- Big-endian value of a byte list (the 128-bit CTR counter reading). -/
def beBytesToNat (l : List Nat) : Nat :=
  l.foldl (fun acc b => acc * 256 + b) 0

/-- Big-endian byte serialisation of `n` into `w` bytes. -/
def natToBeBytes (w : Nat) (n : Nat) : List Nat :=
  (leBytes w n).reverse

/-- Lowercase hexadecimal digit for a value `< 16`. -/
def hexChar (n : Nat) : Char :=
  if n < 10 then Char.ofNat (48 + n) else Char.ofNat (87 + n)

/-- Two lowercase hex digits of one byte. -/
def byteHex (b : Nat) : List Char :=
  [hexChar (b / 16), hexChar (b % 16)]

/-- Lowercase hexadecimal rendering of a byte list. -/
def bytesToHex (l : List Nat) : String :=
  String.mk (l.flatMap byteHex)

/-- UTF-8 encoding of one character (the `TextEncoder` capability). -/
def utf8Bytes (c : Char) : List Nat :=
  let n := c.toNat
  if n < 128 then [n]
  else if n < 2048 then [192 + n / 64, 128 + n % 64]
  else if n < 65536 then [224 + n / 4096, 128 + (n / 64) % 64, 128 + n % 64]
  else [240 + n / 262144, 128 + (n / 4096) % 64, 128 + (n / 64) % 64, 128 + n % 64]

/-- UTF-8 encoding of a string, byte list form (`new TextEncoder().encode`). -/
def utf8Encode (s : String) : List Nat :=
  s.data.flatMap utf8Bytes

/-- The UTF-16 code units of a JavaScript string (as numbers). -/
def jsCharCodes (s : String) : List Nat :=
  s.data.map Char.toNat

/-- The JavaScript string whose code units are the given byte values:
`bytes.map(b => String.fromCharCode(b)).join('')`. -/
def stringOfByteList (l : List Nat) : String :=
  String.mk (l.map Char.ofNat)

/-- The Unicode replacement character emitted by `TextDecoder` on
malformed input. -/
def replChar : Char := Char.ofNat 65533

/-- Guarded scalar-value constructor: surrogate code points become the
replacement character. -/
def uchar (n : Nat) : Char :=
  if 55296 ≤ n ∧ n < 57344 then replChar else Char.ofNat n

/-- Whether a byte is a UTF-8 continuation byte. -/
def isCont (b : Nat) : Bool := 128 ≤ b ∧ b ≤ 191

/-- UTF-8 decoding (the browser's `TextDecoder` capability, non-fatal
mode: malformed sequences produce the replacement character).  The
`Nat` argument is recursion fuel; each step consumes at least one byte,
so fuel equal to the byte count (as `utf8Decode` passes) suffices. -/
def utf8DecodeGo : Nat → List Nat → List Char
  | 0, _ => []
  | _ + 1, [] => []
  | fuel + 1, b :: rest =>
    if b < 128 then Char.ofNat b :: utf8DecodeGo fuel rest
    else if 194 ≤ b ∧ b ≤ 223 then
      match rest with
      | b2 :: rest2 =>
        if isCont b2 then uchar ((b - 192) * 64 + (b2 - 128)) :: utf8DecodeGo fuel rest2
        else replChar :: utf8DecodeGo fuel (b2 :: rest2)
      | [] => [replChar]
    else if 224 ≤ b ∧ b ≤ 239 then
      match rest with
      | b2 :: b3 :: rest3 =>
        if isCont b2 ∧ isCont b3 then
          uchar ((b - 224) * 4096 + (b2 - 128) * 64 + (b3 - 128)) :: utf8DecodeGo fuel rest3
        else replChar :: utf8DecodeGo fuel (b2 :: b3 :: rest3)
      | [b2] => replChar :: utf8DecodeGo fuel [b2]
      | [] => [replChar]
    else if 240 ≤ b ∧ b ≤ 244 then
      match rest with
      | b2 :: b3 :: b4 :: rest4 =>
        if isCont b2 ∧ isCont b3 ∧ isCont b4 then
          uchar ((b - 240) * 262144 + (b2 - 128) * 4096 + (b3 - 128) * 64 + (b4 - 128)) ::
            utf8DecodeGo fuel rest4
        else replChar :: utf8DecodeGo fuel (b2 :: b3 :: b4 :: rest4)
      | [b2, b3] => replChar :: utf8DecodeGo fuel [b2, b3]
      | [b2] => replChar :: utf8DecodeGo fuel [b2]
      | [] => [replChar]
    else replChar :: utf8DecodeGo fuel rest

/-- `new TextDecoder().decode(bytes)`. -/
def utf8Decode (l : List Nat) : String :=
  String.mk (utf8DecodeGo l.length l)

/-! ## MD5 (module `'0xdaf'`)

Modelled from the spec: the body of `md5` is elided in
`src/decode.bundle.js` ("Standard MD5 implementation logic"); §4.1 of
the spec pins it down as the standard round-based 128-bit algorithm
(four 32-bit working registers, 512-bit padded blocks, 64 rounds with
the sine-derived constant table), so the standard MD5 is embedded here
and validated below against the reference digests the spec quotes. -/

/-- The 64 sine-derived MD5 round constants. -/
def md5K : List Nat :=
  [0xd76aa478, 0xe8c7b756, 0x242070db, 0xc1bdceee,
   0xf57c0faf, 0x4787c62a, 0xa8304613, 0xfd469501,
   0x698098d8, 0x8b44f7af, 0xffff5bb1, 0x895cd7be,
   0x6b901122, 0xfd987193, 0xa679438e, 0x49b40821,
   0xf61e2562, 0xc040b340, 0x265e5a51, 0xe9b6c7aa,
   0xd62f105d, 0x02441453, 0xd8a1e681, 0xe7d3fbc8,
   0x21e1cde6, 0xc33707d6, 0xf4d50d87, 0x455a14ed,
   0xa9e3e905, 0xfcefa3f8, 0x676f02d9, 0x8d2a4c8a,
   0xfffa3942, 0x8771f681, 0x6d9d6122, 0xfde5380c,
   0xa4beea44, 0x4bdecfa9, 0xf6bb4b60, 0xbebfbc70,
   0x289b7ec6, 0xeaa127fa, 0xd4ef3085, 0x04881d05,
   0xd9d4d039, 0xe6db99e5, 0x1fa27cf8, 0xc4ac5665,
   0xf4292244, 0x432aff97, 0xab9423a7, 0xfc93a039,
   0x655b59c3, 0x8f0ccc92, 0xffeff47d, 0x85845dd1,
   0x6fa87e4f, 0xfe2ce6e0, 0xa3014314, 0x4e0811a1,
   0xf7537e82, 0xbd3af235, 0x2ad7d2bb, 0xeb86d391]

/-- The MD5 per-round left-rotation amounts. -/
def md5S : List Nat :=
  [7, 12, 17, 22, 7, 12, 17, 22, 7, 12, 17, 22, 7, 12, 17, 22,
   5, 9, 14, 20, 5, 9, 14, 20, 5, 9, 14, 20, 5, 9, 14, 20,
   4, 11, 16, 23, 4, 11, 16, 23, 4, 11, 16, 23, 4, 11, 16, 23,
   6, 10, 15, 21, 6, 10, 15, 21, 6, 10, 15, 21, 6, 10, 15, 21]

/-- 32-bit left rotation (input assumed `< 2^32`). -/
def rotl32 (x s : Nat) : Nat :=
  ((x <<< s) ||| (x >>> (32 - s))) % 4294967296

/-- The MD5 round mixing function for round `i`. -/
def md5F (i b c d : Nat) : Nat :=
  if i < 16 then (b &&& c) ||| ((4294967295 ^^^ b) &&& d)
  else if i < 32 then (d &&& b) ||| ((4294967295 ^^^ d) &&& c)
  else if i < 48 then b ^^^ c ^^^ d
  else c ^^^ (b ||| (4294967295 ^^^ d))

/-- The MD5 message-word index for round `i`. -/
def md5G (i : Nat) : Nat :=
  if i < 16 then i
  else if i < 32 then (5 * i + 1) % 16
  else if i < 48 then (3 * i + 5) % 16
  else (7 * i) % 16

/-- One MD5 round on the register quadruple. -/
def md5Step (M : List Nat) (st : Nat × Nat × Nat × Nat) (i : Nat) :
    Nat × Nat × Nat × Nat :=
  match st with
  | (a, b, c, d) =>
    let f := (md5F i b c d + a + md5K.getD i 0 + M.getD (md5G i) 0) % 4294967296
    (d, (b + rotl32 f (md5S.getD i 0)) % 4294967296, b, c)

/-- Process one 64-byte chunk: 16 little-endian message words, 64
rounds, then add the result into the running registers. -/
def md5Chunk (st : Nat × Nat × Nat × Nat) (chunk : List Nat) :
    Nat × Nat × Nat × Nat :=
  let M := (List.range 16).map fun j =>
    chunk.getD (4 * j) 0 + 256 * chunk.getD (4 * j + 1) 0 +
      65536 * chunk.getD (4 * j + 2) 0 + 16777216 * chunk.getD (4 * j + 3) 0
  match st, (List.range 64).foldl (md5Step M) st with
  | (a0, b0, c0, d0), (a, b, c, d) =>
    ((a0 + a) % 4294967296, (b0 + b) % 4294967296,
     (c0 + c) % 4294967296, (d0 + d) % 4294967296)

/-- Fold the chunk function over the first `n` 64-byte chunks. -/
def md5ChunksGo : Nat → (Nat × Nat × Nat × Nat) → List Nat → Nat × Nat × Nat × Nat
  | 0, st, _ => st
  | n + 1, st, msg => md5ChunksGo n (md5Chunk st (msg.take 64)) (msg.drop 64)

/-- Fold the chunk function over successive 64-byte chunks (the padded
message length is always a multiple of 64). -/
def md5Chunks (st : Nat × Nat × Nat × Nat) (msg : List Nat) : Nat × Nat × Nat × Nat :=
  md5ChunksGo (msg.length / 64) st msg

/-- MD5 padding: `0x80`, zeros to 56 mod 64, then the 64-bit
little-endian bit length. -/
def md5Pad (msg : List Nat) : List Nat :=
  msg ++ 128 :: List.replicate ((119 - msg.length % 64) % 64) 0 ++
    leBytes 8 ((8 * msg.length) % 18446744073709551616)

/-- The raw 16-byte MD5 digest of a byte message. -/
def md5Raw (msg : List Nat) : List Nat :=
  match md5Chunks (0x67452301, 0xefcdab89, 0x98badcfe, 0x10325476) (md5Pad msg) with
  | (a, b, c, d) => leBytes 4 a ++ leBytes 4 b ++ leBytes 4 c ++ leBytes 4 d

/-- `md5(message)`: the lowercase-hex digest string of the UTF-8 bytes
of the message, as the bundled MD5 library returns it. -/
def md5 (s : String) : String :=
  bytesToHex (md5Raw (utf8Encode s))

/-! ## Tolerant base64 decoding (module `'0xa10'` and `window.atob`)

`patchAtob` wraps the native `atob` in a `try`/`catch` that returns the
empty string on any decode failure.  `jsAtob` models the native
forgiving-base64 decoder (`none` models a thrown `InvalidCharacterError`);
`atobPatched` is the patched global used by `AesCtrCipher.decrypt`. -/

/-- Whether a character is ASCII whitespace for forgiving-base64. -/
def isB64Whitespace (c : Char) : Bool :=
  c = ' ' || c = '\t' || c = '\n' || c = '\x0c' || c = '\r'

/-- The base64 alphabet value of a character, `none` if not in it. -/
def b64Val (c : Char) : Option Nat :=
  let n := c.toNat
  if 65 ≤ n ∧ n ≤ 90 then some (n - 65)
  else if 97 ≤ n ∧ n ≤ 122 then some (n - 71)
  else if 48 ≤ n ∧ n ≤ 57 then some (n + 4)
  else if c = '+' then some 62
  else if c = '/' then some 63
  else none

/-- Remove up to two trailing `=` padding characters. -/
def stripB64Padding (l : List Char) : List Char :=
  match l.reverse with
  | '=' :: '=' :: r => r.reverse
  | '=' :: r => r.reverse
  | _ => l

/-- Reassemble 6-bit base64 values into bytes (groups of four values
give three bytes; a final group of two or three gives one or two). -/
def b64Quantums : List Nat → List Nat
  | a :: b :: c :: d :: rest =>
    (a * 4 + b / 16) :: ((b % 16) * 16 + c / 4) :: ((c % 4) * 64 + d) :: b64Quantums rest
  | [a, b] => [a * 4 + b / 16]
  | [a, b, c] => [a * 4 + b / 16, (b % 16) * 16 + c / 4]
  | _ => []

/-- The native `window.atob`: forgiving-base64 decode producing the
decoded bytes (as the char codes of the returned binary string), or
`none` when the input is rejected with an error. -/
def jsAtob (s : String) : Option (List Nat) :=
  let d0 := s.data.filter fun c => !isB64Whitespace c
  let d := if d0.length % 4 = 0 then stripB64Padding d0 else d0
  if d.length % 4 = 1 then none
  else
    let vals := d.map b64Val
    if vals.any Option.isNone then none
    else some (b64Quantums (vals.map fun v => v.getD 0))

/-- The patched `window.atob` installed by module `'0xa10'`:
`try { return originalAtob(input) } catch (e) { return "" }`, read off
as the byte list of the returned binary string. -/
def atobPatched (s : String) : List Nat :=
  (jsAtob s).getD []

/-! ## AES-CTR cipher (module `'0x942'`, `AesCtrCipher`)

`crypto.subtle` with `{ name: "AES-CTR", length: 128 }` is the
browser's cipher capability; the AES block function is abstracted as a
parameter `E : keyBytes → counterBlock → 16-byte keystream block`, and
CTR mode over it is embedded concretely: keystream block `i` is
`E key (counter + i mod 2^128)` (the full 16-byte block is the counter,
per `length: 128`), and data is XORed blockwise with the keystream. -/

/-- The keystream of `n` blocks starting at counter value `ctr`. -/
def ctrKeystream (E : List Nat → List Nat → List Nat) (key : List Nat)
    (ctr : Nat) : Nat → List Nat
  | 0 => []
  | n + 1 => E key (natToBeBytes 16 (ctr % 340282366920938463463374607431768211456)) ++
      ctrKeystream E key (ctr + 1) n

/-- The CTR-mode transform (both `crypto.subtle.encrypt` and
`crypto.subtle.decrypt` for AES-CTR): XOR the data with the keystream
generated from the counter block. -/
def ctrTransform (E : List Nat → List Nat → List Nat)
    (key counterBlock data : List Nat) : List Nat :=
  List.zipWith (fun a b => a ^^^ b) data
    (ctrKeystream E key (beBytesToNat counterBlock) ((data.length + 15) / 16))

/-- A JavaScript value passed to `encrypt`/`decrypt`: a string, a byte
buffer (`Uint8Array`), `null`, or `undefined`. -/
inductive JsData where
  | str (s : String)
  | bin (b : List Nat)
  | nullv
  | undef
deriving DecidableEq

/-- JavaScript truthiness test `!data` on a `JsData` value: empty
strings, `null` and `undefined` are falsy; every object — including an
empty `Uint8Array` — is truthy. -/
def jsFalsy : JsData → Bool
  | .str s => s = ""
  | .bin _ => false
  | .nullv => true
  | .undef => true

/-- The state of an `AesCtrCipher` instance: the imported key (`null`
until a successful `expandKey`) and the counter stored in `aesConfig`. -/
structure CipherState where
  cryptoKey : Option (List Nat)
  counter : List Nat
deriving DecidableEq

/-- A freshly constructed `AesCtrCipher`: `cryptoKey = null`, no
counter set yet on `aesConfig`. -/
def initialCipher : CipherState := { cryptoKey := none, counter := [] }

/-- `AesCtrCipher.expandKey(keyString)`: reject falsy key strings;
otherwise hash the key with `md5`, UTF-8-encode the hex digest string
into `keyData`, store the first 16 bytes of `keyData` as the CTR
counter, and import `keyData` as the key.  (`crypto.subtle.importKey`
on a well-formed 32-byte raw key always succeeds; the `catch` branch
returning `false` is unreachable for string inputs.) -/
def expandKey (st : CipherState) (keyString : String) : Bool × CipherState :=
  if keyString = "" then (false, st)
  else
    let keyData := utf8Encode (md5 keyString)
    (true, { cryptoKey := some keyData, counter := keyData.take 16 })

/-- `AesCtrCipher.encrypt(data)`: pass falsy data or an uninitialised
cipher through unchanged; otherwise UTF-8-encode string input, apply
the CTR transform, and return the result as a binary string (one char
code per ciphertext byte — not base64). -/
def encrypt (E : List Nat → List Nat → List Nat) (st : CipherState)
    (data : JsData) : JsData :=
  if jsFalsy data || st.cryptoKey.isNone then data
  else
    let bytes := match data with
      | .str s => utf8Encode s
      | .bin b => b
      | _ => []
    .str (stringOfByteList (ctrTransform E (st.cryptoKey.getD []) st.counter bytes))

/-- `AesCtrCipher.decrypt(data)`: pass falsy data or an uninitialised
cipher through unchanged.  String input is decoded with the patched
(tolerant) `atob`, transformed, and UTF-8-decoded to text; binary input
is transformed and returned as raw bytes. -/
def decrypt (E : List Nat → List Nat → List Nat) (st : CipherState)
    (data : JsData) : JsData :=
  if jsFalsy data || st.cryptoKey.isNone then data
  else
    match data with
    | .str s =>
      .str (utf8Decode (ctrTransform E (st.cryptoKey.getD []) st.counter (atobPatched s)))
    | .bin b => .bin (ctrTransform E (st.cryptoKey.getD []) st.counter b)
    | d => d

/-! ## Devtools detector (module `'0x26b'` → `'0x8'`, `DevtoolsDetector`)

Checkers are polymorphic units with async `isEnable()` and `isOpen()`
predicates; one poll tick evaluates them in registration order.  Each
checker is modelled by the pair of boolean results its two methods
return during the tick, listeners by whether their callback throws.
The single-threaded timer queue is modelled by a `timerSet` flag
consumed by an explicit scheduler step. -/

/-- One registered checker: its `name` and the values its `isEnable()`
and `isOpen()` methods return. -/
structure Checker where
  name : String
  isEnable : Bool
  isOpen : Bool
deriving DecidableEq

/-- One registered listener callback: identified by name, with a flag
recording whether invoking it throws. -/
structure Listener where
  name : String
  throws : Bool
deriving DecidableEq

/-- The status object handed to listeners on a transition. -/
structure DetectorStatus where
  isOpen : Bool
  checkerName : String
deriving DecidableEq

/-- Observable events of one tick: a listener callback being invoked
with `(isOpen, status)`. -/
inductive DetectorEvent where
  | notified (listenerName : String) (isOpen : Bool) (checkerName : String)
deriving DecidableEq

/-- The `DevtoolsDetector` instance state. -/
structure DetectorState where
  listeners : List Listener
  isOpen : Bool
  detectLoopStopped : Bool
  detectLoopDelay : Int
  checkers : List Checker
  timerSet : Bool
deriving DecidableEq

/-- The checker scan of `detectLoop`: fold over the checkers carrying
`isDevtoolsOpen` and `checkerName`; for an enabled checker record its
name, evaluate `isOpen()` (appending the name to the evaluation trace)
and break out of the loop when it returns `true`.  Returns the final
`(isDevtoolsOpen, checkerName, trace)`. -/
def scanCheckers : List Checker → Bool → String → List String →
    Bool × String × List String
  | [], isO, nm, tr => (isO, nm, tr)
  | c :: rest, isO, nm, tr =>
    if c.isEnable then
      let tr := tr ++ [c.name]
      if c.isOpen then (true, c.name, tr)
      else scanCheckers rest c.isOpen c.name tr
    else scanCheckers rest isO nm tr

/-- The scan as started by `detectLoop`: `isDevtoolsOpen = false`,
`checkerName = ''`. -/
def runScan (cs : List Checker) : Bool × String × List String :=
  scanCheckers cs false "" []

/-- One listener invocation: the notification event, plus whether the
callback threw. -/
def invokeListener (l : Listener) (st : DetectorStatus) :
    List DetectorEvent × Except Unit Unit :=
  ([.notified l.name st.isOpen st.checkerName],
   if l.throws then .error () else .ok ())

/-- `DevtoolsDetector.broadcast(status)`: invoke every listener in
order; each call sits in `try { ... } catch (e) {}`, so a thrown
exception is swallowed and iteration continues either way. -/
def broadcast : List Listener → DetectorStatus → List DetectorEvent
  | [], _ => []
  | l :: rest, st =>
    match invokeListener l st with
    | (ev, .ok _) => ev ++ broadcast rest st
    | (ev, .error _) => ev ++ broadcast rest st

/-- `DevtoolsDetector.stop()`: when the loop is running, mark it
stopped, reset `isOpen`, and `clearTimeout` the pending timer. -/
def detectorStop (s : DetectorState) : DetectorState :=
  if !s.detectLoopStopped then
    { s with detectLoopStopped := true, isOpen := false, timerSet := false }
  else s

/-- One body of `DevtoolsDetector.detectLoop()`: scan the checkers,
broadcast if the open state changed, then either re-arm the timer
(delay positive and still running) or call `stop()`. -/
def detectLoop (s : DetectorState) : DetectorState × List DetectorEvent :=
  match runScan s.checkers with
  | (isDevtoolsOpen, checkerName, _) =>
    let (s, evs) :=
      if isDevtoolsOpen ≠ s.isOpen then
        ({ s with isOpen := isDevtoolsOpen },
         broadcast s.listeners ⟨isDevtoolsOpen, checkerName⟩)
      else (s, [])
    if 0 < s.detectLoopDelay ∧ !s.detectLoopStopped then
      ({ s with timerSet := true }, evs)
    else (detectorStop s, evs)

/-- `DevtoolsDetector.launch()`: restore a non-positive delay to the
500ms default, and when the loop is stopped mark it running and run the
first poll. -/
def detectorLaunch (s : DetectorState) : DetectorState × List DetectorEvent :=
  let s := if s.detectLoopDelay ≤ 0 then { s with detectLoopDelay := 500 } else s
  if s.detectLoopStopped then detectLoop { s with detectLoopStopped := false }
  else (s, [])

/-- One event-loop step: a pending `setTimeout` callback fires (the
timer is consumed and `detectLoop` runs); with no pending timer nothing
happens. -/
def schedulerStep (s : DetectorState) : DetectorState × List DetectorEvent :=
  if s.timerSet then detectLoop { s with timerSet := false } else (s, [])

/-- Run `n` event-loop steps, concatenating the emitted events. -/
def runSteps : Nat → DetectorState → DetectorState × List DetectorEvent
  | 0, s => (s, [])
  | n + 1, s =>
    match schedulerStep s with
    | (s1, ev) =>
      match runSteps n s1 with
      | (s2, evs) => (s2, ev ++ evs)

/-! ## Playback selection (module `'0x22df'`, `Mp4Player`) -/

/-- The four mutually exclusive playback backends. -/
inductive PlayerImpl where
  | sw
  | box
  | native
  | video
deriving DecidableEq

/-- The capability inputs read by `Mp4Player.setup` (the elided
browser-specific checks, as environment facts). -/
structure Mp4Caps where
  isServiceWorkerSupported : Bool
  isEdgeAndroid : Bool
  isHeyTapBrowser : Bool
  isChromeVersionOk : Bool
  isMediaSourceSupported : Bool
deriving DecidableEq

/-- The backend chosen by `Mp4Player.setup`: the service-worker player
behind a deny-list and version gate, else the MSE player, else the
native player; afterwards, only if `playerImplementation` is still
unset (`null`), fall back to the raw video player. -/
def mp4PlayerSelect (c : Mp4Caps) : PlayerImpl :=
  let playerImplementation : Option PlayerImpl :=
    if c.isServiceWorkerSupported && !c.isEdgeAndroid && !c.isHeyTapBrowser &&
        c.isChromeVersionOk then
      some .sw
    else if c.isMediaSourceSupported then some .box
    else some .native
  match playerImplementation with
  | none => .video
  | some p => p

/-! ## Player lifecycle (module `'0x2c'`, `Player`) -/

/-- The mutable fields of a `Player` closure relevant to `destroy`. -/
structure PlayerState where
  isDestroyed : Bool
  playerInstance : Option PlayerImpl
  swRegistered : Bool
  options : List String
  trackerActive : Bool
deriving DecidableEq

/-- Observable effects of `Player.destroy`. -/
inductive PlayerEvent where
  | backendDestroyed
  | swDestroyed
  | trackerDestroyed
  | notify (title : String) (message : String)
deriving DecidableEq

/-- `Player.destroy(reason)`: guarded by the `isDestroyed` flag; the
first call tears down the backend, the service-worker registration, the
options and the tracker, then shows one notification whose message is
`reason || "Player has been destroyed"`; later calls do nothing. -/
def playerDestroy (s : PlayerState) (reason : String) :
    PlayerState × List PlayerEvent :=
  if !s.isDestroyed then
    ({ isDestroyed := true, playerInstance := none, swRegistered := false,
       options := [], trackerActive := false },
     (if s.playerInstance.isSome then [.backendDestroyed] else []) ++
       [.swDestroyed] ++
       (if s.trackerActive then [.trackerDestroyed] else []) ++
       [.notify "Notification" (if reason = "" then "Player has been destroyed" else reason)])
  else (s, [])

/-- Whether a player event is the user-facing notification. -/
def isNotify : PlayerEvent → Bool
  | .notify _ _ => true
  | _ => false

/-! ## Concrete example states used by the witnesses -/

/-- Three checkers: the first disabled (though it would report open),
the second enabled and open, the third enabled but closed. -/
def exampleCheckers : List Checker :=
  [⟨"c1", false, true⟩, ⟨"c2", true, true⟩, ⟨"c3", true, false⟩]

/-- A freshly launched detector watching `exampleCheckers` with one
well-behaved listener. -/
def exampleDetector : DetectorState :=
  { listeners := [⟨"main", false⟩], isOpen := false, detectLoopStopped := false,
    detectLoopDelay := 500, checkers := exampleCheckers, timerSet := false }

/-- A running detector with an armed timer. -/
def exampleRunningDetector : DetectorState :=
  { listeners := [⟨"main", false⟩], isOpen := true, detectLoopStopped := false,
    detectLoopDelay := 500, checkers := [⟨"c2", true, true⟩], timerSet := true }

/-- A live player session with backend, registration and tracker. -/
def examplePlayer : PlayerState :=
  { isDestroyed := false, playerInstance := some PlayerImpl.sw, swRegistered := true,
    options := ["src"], trackerActive := true }

/-! ## Helper lemmas -/

/-- The spec's reference vector: the digest of the empty input is the
well-known constant (spec §8). -/
theorem md5_empty : md5 "" = "d41d8cd98f00b204e9800998ecf8427e" := by decide

/-- The spec's reference vector: the digest of `"abc"` matches its
documented value (spec §8). -/
theorem md5_abc : md5 "abc" = "900150983cd24fb0d6963f7d28e17f72" := by decide

theorem ctrKeystream_length (E : List Nat → List Nat → List Nat) (key : List Nat)
    (hE : ∀ k c, (E k c).length = 16) :
    ∀ (n ctr : Nat), (ctrKeystream E key ctr n).length = 16 * n := by
  intro n
  induction n with
  | zero => intro ctr; rfl
  | succ m ih =>
    intro ctr
    simp [ctrKeystream, hE, ih]
    omega

theorem zipWith_xor_cancel :
    ∀ (p ks : List Nat), p.length ≤ ks.length →
      List.zipWith (fun a b => a ^^^ b) (List.zipWith (fun a b => a ^^^ b) p ks) ks = p := by
  intro p
  induction p with
  | nil => intro ks _; simp
  | cons a q ih =>
    intro ks h
    cases ks with
    | nil => simp at h
    | cons b ks' =>
      simp only [List.zipWith, Nat.xor_cancel_right, List.cons.injEq, true_and]
      exact ih ks' (by simpa using h)

theorem ctrTransform_length (E : List Nat → List Nat → List Nat)
    (key c d : List Nat) (hE : ∀ k c, (E k c).length = 16) :
    (ctrTransform E key c d).length = d.length := by
  simp [ctrTransform, ctrKeystream_length E key hE]
  omega

theorem ctrTransform_involution (E : List Nat → List Nat → List Nat)
    (key c : List Nat) (hE : ∀ k c, (E k c).length = 16) (p : List Nat) :
    ctrTransform E key c (ctrTransform E key c p) = p := by
  have hlen := ctrTransform_length E key c p hE
  simp only [ctrTransform] at hlen ⊢
  rw [hlen]
  exact zipWith_xor_cancel p _ (by rw [ctrKeystream_length E key hE]; omega)

theorem xor_lt_256 {a b : Nat} (ha : a < 256) (hb : b < 256) : a ^^^ b < 256 := by
  have h8 : Nat.bitwise bne a b < 2 ^ 8 := Nat.bitwise_lt_two_pow (by omega) (by omega)
  simpa [HXor.hXor, Xor.xor, Nat.xor] using h8

theorem ctrKeystream_bytes_lt (E : List Nat → List Nat → List Nat) (key : List Nat)
    (hB : ∀ k c b, b ∈ E k c → b < 256) :
    ∀ (n ctr : Nat) (b : Nat), b ∈ ctrKeystream E key ctr n → b < 256 := by
  intro n
  induction n with
  | zero => intro ctr b hb; simp [ctrKeystream] at hb
  | succ m ih =>
    intro ctr b hb
    simp only [ctrKeystream, List.mem_append] at hb
    rcases hb with hb | hb
    · exact hB _ _ _ hb
    · exact ih _ _ hb

theorem zipWith_xor_bytes_lt :
    ∀ (p ks : List Nat), (∀ a ∈ p, a < 256) → (∀ b ∈ ks, b < 256) →
      ∀ x ∈ List.zipWith (fun a b => a ^^^ b) p ks, x < 256 := by
  intro p
  induction p with
  | nil => intro ks _ _ x hx; simp at hx
  | cons a q ih =>
    intro ks hp hks x hx
    cases ks with
    | nil => simp at hx
    | cons b ks' =>
      simp only [List.zipWith, List.mem_cons] at hx
      rcases hx with hx | hx
      · subst hx
        exact xor_lt_256 (hp a (by simp)) (hks b (by simp))
      · exact ih ks' (fun y hy => hp y (by simp [hy])) (fun y hy => hks y (by simp [hy])) x hx

theorem char_toNat_ofNat {n : Nat} (h : n < 55296) : (Char.ofNat n).toNat = n := by
  have hv : n.isValidChar := Or.inl h
  rw [Char.ofNat, dif_pos hv]
  rfl

theorem jsCharCodes_stringOfByteList (l : List Nat) (h : ∀ b ∈ l, b < 256) :
    jsCharCodes (stringOfByteList l) = l := by
  simp only [jsCharCodes, stringOfByteList, List.map_map]
  refine (List.map_congr_left fun b hb => ?_).trans (List.map_id l)
  exact char_toNat_ofNat (by have := h b hb; omega)

theorem stringOfByteList_length (l : List Nat) :
    (stringOfByteList l).length = l.length := by
  simp [stringOfByteList, String.length]

theorem broadcast_eq_map (ls : List Listener) (st : DetectorStatus) :
    broadcast ls st = ls.map fun l => .notified l.name st.isOpen st.checkerName := by
  induction ls with
  | nil => rfl
  | cons l rest ih =>
    cases hl : l.throws <;> simp [broadcast, invokeListener, hl, ih]

theorem schedulerStep_no_timer (s : DetectorState) (h : s.timerSet = false) :
    schedulerStep s = (s, []) := by
  simp [schedulerStep, h]

theorem scanCheckers_trace (cs : List Checker) :
    ∀ (isO : Bool) (nm : String) (tr : List String),
      (scanCheckers cs isO nm tr).2.2 =
        tr ++ (((cs.filter fun c => c.isEnable).takeWhile fun c => !c.isOpen).map Checker.name ++
          (((cs.filter fun c => c.isEnable).dropWhile fun c => !c.isOpen).take 1).map Checker.name) := by
  induction cs with
  | nil => intro isO nm tr; simp [scanCheckers]
  | cons c rest ih =>
    intro isO nm tr
    cases he : c.isEnable with
    | false => simp [scanCheckers, he, ih]
    | true =>
      cases ho : c.isOpen with
      | true => simp [scanCheckers, he, ho, List.takeWhile, List.dropWhile]
      | false => simp [scanCheckers, he, ho, ih, List.takeWhile, List.dropWhile]

theorem leBytes_lt : ∀ (w n : Nat), ∀ b ∈ leBytes w n, b < 256 := by
  intro w
  induction w with
  | zero => intro n b hb; simp [leBytes] at hb
  | succ v ih =>
    intro n b hb
    simp only [leBytes, List.mem_cons] at hb
    rcases hb with hb | hb
    · omega
    · exact ih _ b hb

theorem md5Raw_bytes_lt (msg : List Nat) : ∀ b ∈ md5Raw msg, b < 256 := by
  intro b hb
  unfold md5Raw at hb
  rcases hmatch : md5Chunks (0x67452301, 0xefcdab89, 0x98badcfe, 0x10325476) (md5Pad msg)
    with ⟨a, b2, c, d⟩
  rw [hmatch] at hb
  simp only [List.mem_append] at hb
  rcases hb with ((hb | hb) | hb) | hb <;> exact leBytes_lt _ _ b hb

theorem hexChar_code (n : Nat) (h : n < 16) :
    (48 ≤ (hexChar n).toNat ∧ (hexChar n).toNat ≤ 57) ∨
      (97 ≤ (hexChar n).toNat ∧ (hexChar n).toNat ≤ 102) := by
  unfold hexChar
  split
  · left
    rw [char_toNat_ofNat (by omega)]
    omega
  · right
    rw [char_toNat_ofNat (by omega)]
    omega

theorem utf8Encode_bytesToHex_hexdigits (l : List Nat) (hl : ∀ b ∈ l, b < 256) :
    ∀ b ∈ utf8Encode (bytesToHex l), (48 ≤ b ∧ b ≤ 57) ∨ (97 ≤ b ∧ b ≤ 102) := by
  intro b hb
  simp only [utf8Encode, bytesToHex, List.mem_flatMap] at hb
  obtain ⟨c, hc, hbc⟩ := hb
  obtain ⟨x, hx, hcx⟩ := hc
  have hdig : (48 ≤ c.toNat ∧ c.toNat ≤ 57) ∨ (97 ≤ c.toNat ∧ c.toNat ≤ 102) := by
    have hx256 := hl x hx
    simp only [byteHex, List.mem_cons, List.not_mem_nil, or_false] at hcx
    rcases hcx with hcx | hcx <;> subst hcx
    · exact hexChar_code _ (by omega)
    · exact hexChar_code _ (by omega)
  have hsmall : c.toNat < 128 := by omega
  simp only [utf8Bytes, hsmall, if_pos, List.mem_singleton] at hbc
  subst hbc
  exact hdig

/-! ## Claim theorems -/

/-- C1: for every secret accepted by `expandKey` and every plaintext of
length 0, 1, 16, 17 or 1000 bytes, decrypting the byte stream output by
`encrypt` under the same expanded key and the same initial counter
returns the plaintext byte-for-byte, with byte length preserved (the
CTR keystream is XORed with the data, so encrypt followed by decrypt is
the identity on the byte stream). -/
theorem encrypt_then_decrypt_id
    (E : List Nat → List Nat → List Nat)
    (hElen : ∀ k c, (E k c).length = 16)
    (hEbyte : ∀ k c b, b ∈ E k c → b < 256)
    (secret : String) (hsecret : secret ≠ "")
    (p : List Nat) (hp : ∀ b ∈ p, b < 256)
    (_hlen : p.length = 0 ∨ p.length = 1 ∨ p.length = 16 ∨ p.length = 17 ∨ p.length = 1000) :
    ∃ ct : String,
      encrypt E (expandKey initialCipher secret).2 (.bin p) = .str ct ∧
      ct.length = p.length ∧
      decrypt E (expandKey initialCipher secret).2 (.bin (jsCharCodes ct)) = .bin p := by
  have hexp : (expandKey initialCipher secret).2 =
      { cryptoKey := some (utf8Encode (md5 secret)),
        counter := (utf8Encode (md5 secret)).take 16 } := by
    simp [expandKey, hsecret]
  have hctlt : ∀ b ∈ ctrTransform E (utf8Encode (md5 secret))
      ((utf8Encode (md5 secret)).take 16) p, b < 256 := by
    intro b hb
    simp only [ctrTransform] at hb
    exact zipWith_xor_bytes_lt p _ hp
      (fun y hy => ctrKeystream_bytes_lt E _ hEbyte _ _ y hy) b hb
  refine ⟨stringOfByteList (ctrTransform E (utf8Encode (md5 secret))
    ((utf8Encode (md5 secret)).take 16) p), ?_, ?_, ?_⟩
  · rw [hexp]
    simp [encrypt, jsFalsy]
  · rw [stringOfByteList_length]
    exact ctrTransform_length E _ _ p hElen
  · rw [hexp, jsCharCodes_stringOfByteList _ hctlt]
    simp only [decrypt, jsFalsy, Option.isNone_some, Bool.or_false, Option.getD_some]
    rw [ctrTransform_involution E _ _ hElen p]
    simp

/-- C1 witness: the round-trip at the concrete secret `"a"`, the
one-byte plaintext `[104]`, and the zero-keystream instance of the
abstract AES block capability. -/
theorem encrypt_then_decrypt_id_witness :
    ∃ ct : String,
      encrypt (fun _ _ => List.replicate 16 0) (expandKey initialCipher "a").2 (.bin [104]) = .str ct ∧
      ct.length = ([104] : List Nat).length ∧
      decrypt (fun _ _ => List.replicate 16 0) (expandKey initialCipher "a").2
        (.bin (jsCharCodes ct)) = .bin [104] := by
  refine encrypt_then_decrypt_id _ (fun k c => by simp) (fun k c b hb => ?_) "a"
    (by decide) [104] (fun b hb => ?_) (Or.inr (Or.inl rfl))
  · simp at hb
    omega
  · simp at hb
    omega

/-- C2 counterexample: for the secret `"a"`, the counter block stored
by `expandKey` is not the first 16 bytes of the raw 128-bit digest of
the secret; it is the first 16 bytes of the UTF-8-encoded hex-string
text of that digest. -/
theorem counter_raw_digest_cex :
    (expandKey initialCipher "a").2.counter ≠ (md5Raw (utf8Encode "a")).take 16 ∧
    (expandKey initialCipher "a").2.counter =
      (utf8Encode (bytesToHex (md5Raw (utf8Encode "a")))).take 16 := by
  decide

/-- C2 amended: the initial counter block used by the cipher is the
first 16 bytes of the UTF-8-encoded lowercase hex-string representation
of the 128-bit digest of the secret (the same bytes as the start of the
key material), not the first 16 bytes of the raw digest bytes: every
counter byte is an ASCII hex-digit code. -/
theorem counter_is_hex_text (s : String) (hs : s ≠ "") :
    (expandKey initialCipher s).2.counter = (utf8Encode (md5 s)).take 16 ∧
    ∀ b ∈ (expandKey initialCipher s).2.counter,
      (48 ≤ b ∧ b ≤ 57) ∨ (97 ≤ b ∧ b ≤ 102) := by
  have hexp : (expandKey initialCipher s).2 =
      { cryptoKey := some (utf8Encode (md5 s)),
        counter := (utf8Encode (md5 s)).take 16 } := by
    simp [expandKey, hs]
  rw [hexp]
  refine ⟨rfl, ?_⟩
  intro b hb
  have hb' : b ∈ utf8Encode (md5 s) := List.mem_of_mem_take hb
  simp only [md5] at hb'
  exact utf8Encode_bytesToHex_hexdigits _ (md5Raw_bytes_lt _) b hb'

/-- C2 amended, witness at the concrete secret `"b"`. -/
theorem counter_is_hex_text_witness :
    (expandKey initialCipher "b").2.counter = (utf8Encode (md5 "b")).take 16 ∧
    ∀ b ∈ (expandKey initialCipher "b").2.counter,
      (48 ≤ b ∧ b ≤ 57) ∨ (97 ≤ b ∧ b ≤ 102) :=
  counter_is_hex_text "b" (by decide)

/-- C3: `expandKey` on the empty (falsy) secret returns `false` leaving
the cipher state untouched, and in the uninitialised state (`cryptoKey`
still `null`) both `encrypt` and `decrypt` return their input unchanged
for every input and block-cipher instance. -/
theorem expandKey_empty_passthrough :
    (∀ st : CipherState, expandKey st "" = (false, st)) ∧
    ∀ (E : List Nat → List Nat → List Nat) (st : CipherState) (d : JsData),
      st.cryptoKey = none → encrypt E st d = d ∧ decrypt E st d = d := by
  refine ⟨fun st => by simp [expandKey], fun E st d h => ⟨?_, ?_⟩⟩
  · simp [encrypt, h]
  · simp [decrypt, h]

/-- C3 witness: `expandKey("")` returns `false` on a fresh cipher, and
the still-uninitialised cipher passes `"x"` through `encrypt` and
`decrypt` unchanged. -/
theorem expandKey_empty_passthrough_witness :
    expandKey initialCipher "" = (false, initialCipher) ∧
    encrypt (fun _ _ => List.replicate 16 0) initialCipher (.str "x") = .str "x" ∧
    decrypt (fun _ _ => List.replicate 16 0) initialCipher (.str "x") = .str "x" :=
  ⟨expandKey_empty_passthrough.1 initialCipher,
   (expandKey_empty_passthrough.2 _ initialCipher (.str "x") rfl).1,
   (expandKey_empty_passthrough.2 _ initialCipher (.str "x") rfl).2⟩

/-- C4: on an expanded cipher, any textual input rejected by the base64
decoder is turned into an empty byte sequence by the tolerant `atob`
patch, so `decrypt` returns the empty string instead of throwing. -/
theorem decrypt_invalid_base64_empty
    (E : List Nat → List Nat → List Nat) (st : CipherState)
    (hkey : st.cryptoKey.isSome) (s : String) (hinv : jsAtob s = none) :
    decrypt E st (.str s) = .str "" := by
  have hne : s ≠ "" := by
    intro h
    rw [h, show jsAtob "" = some [] from by decide] at hinv
    cases hinv
  obtain ⟨k, hk⟩ := Option.isSome_iff_exists.mp hkey
  have h0 : atobPatched s = [] := by simp [atobPatched, hinv]
  have h1 : ctrTransform E k st.counter [] = [] := by simp [ctrTransform]
  have h2 : utf8Decode [] = "" := rfl
  simp [decrypt, jsFalsy, hne, hk, h0, h1, h2]

/-- C4 witness: an expanded cipher state returns the empty string on
the concrete malformed input `"not-valid-base64!!"`. -/
theorem decrypt_invalid_base64_empty_witness :
    decrypt (fun _ _ => List.replicate 16 0)
      { cryptoKey := some (List.replicate 32 48), counter := List.replicate 16 48 }
      (.str "not-valid-base64!!") = .str "" :=
  decrypt_invalid_base64_empty _ _ (by decide) _ (by decide)

/-- C5: in a poll cycle the checkers are scanned in registration order,
`isOpen()` is evaluated only for enabled checkers, and the scan stops
exactly at the first checker reporting open (general trace
characterisation in the last conjunct).  With three checkers of which
only the second is enabled-and-open, one tick broadcasts exactly once
to every listener with `isOpen = true` and the second checker's name,
and a second tick on the unchanged state broadcasts nothing. -/
theorem detectLoop_order_and_edge_trigger
    (c1 c2 c3 : Checker) (h1 : c1.isEnable = false)
    (h2 : c2.isEnable = true) (h3 : c2.isOpen = true)
    (s : DetectorState) (hck : s.checkers = [c1, c2, c3]) (ho : s.isOpen = false)
    (hst : s.detectLoopStopped = false) (hd : 0 < s.detectLoopDelay) :
    (runScan s.checkers).2.2 = [c2.name] ∧
    (detectLoop s).2 = s.listeners.map (fun l => .notified l.name true c2.name) ∧
    (detectLoop s).1.isOpen = true ∧
    (detectLoop ((detectLoop s).1)).2 = [] ∧
    ∀ cs : List Checker,
      (runScan cs).2.2 =
        ((cs.filter fun c => c.isEnable).takeWhile fun c => !c.isOpen).map Checker.name ++
          (((cs.filter fun c => c.isEnable).dropWhile fun c => !c.isOpen).take 1).map Checker.name := by
  have hscan : runScan s.checkers = (true, c2.name, [c2.name]) := by
    rw [hck]
    simp [runScan, scanCheckers, h1, h2, h3]
  have hloop1 : detectLoop s =
      ({ s with isOpen := true, timerSet := true },
       broadcast s.listeners ⟨true, c2.name⟩) := by
    simp [detectLoop, hscan, ho, hst, hd]
  have hscan1 : runScan ({ s with isOpen := true, timerSet := true } : DetectorState).checkers =
      (true, c2.name, [c2.name]) := hscan
  refine ⟨by rw [hscan], ?_, by rw [hloop1], ?_, ?_⟩
  · rw [hloop1]
    exact broadcast_eq_map s.listeners ⟨true, c2.name⟩
  · rw [hloop1]
    simp [detectLoop, hscan1, hst, hd]
  · intro cs
    simp [runScan, scanCheckers_trace]

/-- C5 witness: the concrete three-checker, one-listener scenario. -/
theorem detectLoop_order_and_edge_trigger_witness :
    (runScan exampleCheckers).2.2 = ["c2"] ∧
    (detectLoop exampleDetector).2 = [.notified "main" true "c2"] ∧
    (detectLoop exampleDetector).1.isOpen = true ∧
    (detectLoop ((detectLoop exampleDetector).1)).2 = [] := by
  have h := detectLoop_order_and_edge_trigger ⟨"c1", false, true⟩ ⟨"c2", true, true⟩
    ⟨"c3", true, false⟩ rfl rfl rfl exampleDetector rfl rfl rfl (by decide)
  exact ⟨h.1, h.2.1, h.2.2.1, h.2.2.2.1⟩

/-- C6: `stop()` on a running monitor marks the loop stopped, resets
`isOpen`, clears the pending timer, and afterwards no number of
event-loop steps fires another poll or delivers another broadcast. -/
theorem stop_cancels_loop (s : DetectorState) (h : s.detectLoopStopped = false) :
    (detectorStop s).detectLoopStopped = true ∧
    (detectorStop s).isOpen = false ∧
    (detectorStop s).timerSet = false ∧
    ∀ n, runSteps n (detectorStop s) = (detectorStop s, []) := by
  have hstop : detectorStop s =
      { s with detectLoopStopped := true, isOpen := false, timerSet := false } := by
    simp [detectorStop, h]
  have hts : (detectorStop s).timerSet = false := by rw [hstop]
  refine ⟨by rw [hstop], by rw [hstop], hts, ?_⟩
  intro n
  induction n with
  | zero => rfl
  | succ m ih =>
    simp [runSteps, schedulerStep_no_timer _ hts, ih]

/-- C6 witness: stopping a concrete running monitor with an armed
timer; three further event-loop steps change nothing and emit nothing. -/
theorem stop_cancels_loop_witness :
    (detectorStop exampleRunningDetector).detectLoopStopped = true ∧
    (detectorStop exampleRunningDetector).isOpen = false ∧
    (detectorStop exampleRunningDetector).timerSet = false ∧
    runSteps 3 (detectorStop exampleRunningDetector) =
      (detectorStop exampleRunningDetector, []) := by
  have h := stop_cancels_loop exampleRunningDetector rfl
  exact ⟨h.1, h.2.1, h.2.2.1, h.2.2.2 3⟩

/-- C7 counterexample: with every capability false the selection chain
yields the native backend, not the raw-video fallback the claim
promises (the raw-video branch requires `playerImplementation` to still
be unset, which never happens). -/
theorem select_all_false_cex :
    mp4PlayerSelect ⟨false, false, false, false, false⟩ = PlayerImpl.native ∧
    mp4PlayerSelect ⟨false, false, false, false, false⟩ ≠ PlayerImpl.video := by
  decide

/-- C7 amended: backend selection is a first-match-wins chain — the
stream-interception backend when the interception facility is present,
not deny-listed and the version gate holds; else the source-buffering
backend when that facility is present; else the native backend
unconditionally.  The raw-video assignment is dead code: selection
never returns it, and with all capabilities false the native backend is
chosen. -/
theorem select_chain (c : Mp4Caps) :
    (c.isServiceWorkerSupported = true → c.isEdgeAndroid = false →
      c.isHeyTapBrowser = false → c.isChromeVersionOk = true →
      mp4PlayerSelect c = PlayerImpl.sw) ∧
    ((c.isServiceWorkerSupported && !c.isEdgeAndroid && !c.isHeyTapBrowser &&
        c.isChromeVersionOk) = false → c.isMediaSourceSupported = true →
      mp4PlayerSelect c = PlayerImpl.box) ∧
    ((c.isServiceWorkerSupported && !c.isEdgeAndroid && !c.isHeyTapBrowser &&
        c.isChromeVersionOk) = false → c.isMediaSourceSupported = false →
      mp4PlayerSelect c = PlayerImpl.native) ∧
    mp4PlayerSelect c ≠ PlayerImpl.video := by
  rcases c with ⟨a, b, c', d, e⟩
  cases a <;> cases b <;> cases c' <;> cases d <;> cases e <;> simp [mp4PlayerSelect]

/-- C7 amended, witness: the interception-capable environment selects
the stream-interception backend, and selection is never the raw-video
backend there. -/
theorem select_chain_witness :
    mp4PlayerSelect ⟨true, false, false, true, false⟩ = PlayerImpl.sw ∧
    mp4PlayerSelect ⟨true, false, false, true, false⟩ ≠ PlayerImpl.video :=
  ⟨(select_chain ⟨true, false, false, true, false⟩).1 rfl rfl rfl rfl,
   (select_chain ⟨true, false, false, true, false⟩).2.2.2⟩

/-- C8: `broadcast` notifies every registered listener in order with
the same status regardless of which listeners throw (each call is
wrapped in `try`/`catch`), and the poll loop's resulting state does not
depend on the listener list, so a throwing listener can neither starve
later listeners nor abort the cycle. -/
theorem broadcast_isolates_listener_failures :
    (∀ (ls : List Listener) (st : DetectorStatus),
      broadcast ls st = ls.map fun l => .notified l.name st.isOpen st.checkerName) ∧
    ∀ (s : DetectorState) (ls : List Listener),
      (detectLoop { s with listeners := ls }).1.isOpen = (detectLoop s).1.isOpen ∧
      (detectLoop { s with listeners := ls }).1.detectLoopStopped =
        (detectLoop s).1.detectLoopStopped ∧
      (detectLoop { s with listeners := ls }).1.timerSet = (detectLoop s).1.timerSet := by
  refine ⟨broadcast_eq_map, ?_⟩
  intro s ls
  rcases hscan : runScan s.checkers with ⟨o, nm, tr⟩
  have hscan' : runScan ({ s with listeners := ls } : DetectorState).checkers =
      (o, nm, tr) := hscan
  simp only [detectLoop, hscan, hscan']
  by_cases hne : o ≠ s.isOpen <;>
    by_cases harm : 0 < s.detectLoopDelay ∧ s.detectLoopStopped = false <;>
      simp_all [detectorStop] <;> split_ifs <;> simp_all

/-- C9: `Player.destroy` is idempotent: the first call on a live player
tears down the backend, service-worker registration, tracker and
options and issues exactly one notification carrying the given reason;
a second call is a no-op emitting nothing, so two calls produce exactly
one notification. -/
theorem destroy_idempotent (s : PlayerState) (reason reason2 : String)
    (h : s.isDestroyed = false) (hr : reason ≠ "") :
    (playerDestroy s reason).1.isDestroyed = true ∧
    (playerDestroy s reason).1.playerInstance = none ∧
    (playerDestroy s reason).1.swRegistered = false ∧
    (playerDestroy s reason).1.options = [] ∧
    (playerDestroy s reason).1.trackerActive = false ∧
    (playerDestroy s reason).2.filter isNotify = [.notify "Notification" reason] ∧
    playerDestroy (playerDestroy s reason).1 reason2 = ((playerDestroy s reason).1, []) ∧
    ((playerDestroy s reason).2 ++
        (playerDestroy (playerDestroy s reason).1 reason2).2).filter isNotify =
      [.notify "Notification" reason] := by
  cases hpi : s.playerInstance.isSome <;> cases hta : s.trackerActive <;>
    simp [playerDestroy, h, hr, isNotify, hpi, hta]

/-- C9 witness: destroying a concrete live player twice. -/
theorem destroy_idempotent_witness :
    (playerDestroy examplePlayer "session ended").2.filter isNotify =
      [.notify "Notification" "session ended"] ∧
    playerDestroy (playerDestroy examplePlayer "session ended").1 "again" =
      ((playerDestroy examplePlayer "session ended").1, []) := by
  have h := destroy_idempotent examplePlayer "session ended" "again" rfl (by decide)
  exact ⟨h.2.2.2.2.2.1, h.2.2.2.2.2.2.1⟩

/-- C10: `encrypt` and `decrypt` return every falsy input (empty
string, `null`, `undefined`) unchanged in every cipher state, including
after a successful `expandKey` — the pass-through is not limited to the
uninitialised state. -/
theorem falsy_passthrough_any_state
    (E : List Nat → List Nat → List Nat) (st : CipherState) (d : JsData)
    (h : jsFalsy d = true) :
    encrypt E st d = d ∧ decrypt E st d = d := by
  constructor <;> simp [encrypt, decrypt, h]

/-- C10 witness: after the successful `expandKey("a")`, `encrypt("")`
and `decrypt("")` are still the identity. -/
theorem falsy_passthrough_any_state_witness :
    (expandKey initialCipher "a").1 = true ∧
    encrypt (fun _ _ => List.replicate 16 0) (expandKey initialCipher "a").2
      (.str "") = .str "" ∧
    decrypt (fun _ _ => List.replicate 16 0) (expandKey initialCipher "a").2
      (.str "") = .str "" :=
  ⟨by decide,
   (falsy_passthrough_any_state _ _ _ (by decide)).1,
   (falsy_passthrough_any_state _ _ _ (by decide)).2⟩
